import Mathlib

/-!
Verification of the blog data model and page builders of the ponbac.xyz
static site.

The embedding mirrors the two source files that hold all of the site's
logic:

* `src/pages/blog/index.astro` — loads every blog content entry and sorts
  it with `(await getCollection("blog")).sort((a, b) => b.data.pubDate.valueOf() - a.data.pubDate.valueOf())`,
  then maps each post to a list item with a link, an image, a title and a
  formatted date.
* `src/layouts/BlogPost.astro` — renders a single post: an optional hero
  image (guarded by `heroImage &&`), the publish date, an optional
  "Last updated on" line (guarded by `updatedDate &&`), the title and the
  body slot.

JavaScript `Array.prototype.sort` is required by the ECMAScript standard
to be a stable sort whose output is ordered by the comparator; with the
comparator above this is exactly `List.mergeSort` with the boolean order
`postLE a b = (b.pubDate ≤ a.pubDate)` (descending by publish date,
`Date.valueOf()` embedded as an integer millisecond timestamp).

Emitted markup is embedded as a flat list of tokens (`Tok`): opening tags
with their attribute lists, closing tags, text nodes, and the node
produced by the `FormattedDate` component.
-/

/-- A blog post entry, i.e. a `CollectionEntry<"blog">`: the slug derived
from the content file name, the front-matter fields (`title`,
`description`, `pubDate`, optional `updatedDate`, optional `heroImage`)
and the markdown body.  Dates are embedded as their `Date.valueOf()`
millisecond timestamps. -/
structure Post where
  slug : String
  title : String
  description : String
  pubDate : Int
  updatedDate : Option Int
  heroImage : Option String
  body : String
deriving DecidableEq

/-- The boolean order induced by the comparator
`(a, b) => b.data.pubDate.valueOf() - a.data.pubDate.valueOf()` of
`src/pages/blog/index.astro`: `a` may come before `b` exactly when the
comparator is non-positive, i.e. when `b.pubDate ≤ a.pubDate`. -/
def postLE (a b : Post) : Bool := decide (b.pubDate ≤ a.pubDate)

/-- The post index builder of `src/pages/blog/index.astro`:
`(await getCollection("blog")).sort((a, b) => b.data.pubDate.valueOf() - a.data.pubDate.valueOf())`.
ECMAScript `Array.prototype.sort` is a stable sort ordered by the
comparator, embedded as `List.mergeSort` with the order `postLE`. -/
def sortPosts (entries : List Post) : List Post := entries.mergeSort postLE

/-- A token of emitted markup: an opening tag with its (already resolved)
attribute list, a closing tag, a text node, or the node rendered by the
`FormattedDate` component for a given date. -/
inductive Tok where
  | openTag (tag : String) (attrs : List (String × String))
  | closeTag (tag : String)
  | text (s : String)
  | dateNode (d : Int)
deriving DecidableEq

/-- An element with children: opening tag, children, closing tag. -/
def el (tag : String) (attrs : List (String × String)) (children : List Tok) : List Tok :=
  Tok.openTag tag attrs :: (children ++ [Tok.closeTag tag])

/-- A void element (`img`, `hr`): just its opening tag. -/
def voidEl (tag : String) (attrs : List (String × String)) : List Tok :=
  [Tok.openTag tag attrs]

/-- An attribute whose value is a possibly-undefined expression: Astro
omits an attribute whose value is `undefined`. -/
def optAttr (key : String) : Option String → List (String × String)
  | some v => [(key, v)]
  | none => []

/-- Modelled from the spec: the site title constant `SITE_TITLE` imported
from `src/consts` (file not present in the sources); the spec names the
site `ponbac.xyz`. -/
def SITE_TITLE : String := "ponbac.xyz"

/-- Modelled from the spec: the `FormattedDate` component
(`src/components/FormattedDate.astro`, not present in the sources).  The
spec says the renderer embeds the date into the shell; the component is
embedded as an opaque node carrying the date it renders. -/
def FormattedDate (date : Int) : List Tok := [Tok.dateNode date]

/-- Modelled from the spec: the shared `Header` component
(`src/components/Header.astro`, not present in the sources); the spec
describes it only as part of the fixed page shell. -/
def Header : List Tok := el "header" [] []

/-- Modelled from the spec: the shared page shell `Layout`
(`src/layouts/Layout.astro`, not present in the sources); the spec
describes it as a fixed shell receiving a title and wrapping the page
content. -/
def Layout (title : String) (children : List Tok) : List Tok :=
  el "html" [("data-title", title)] children

/-- The opening token of the "Last updated on" line of
`src/layouts/BlogPost.astro`: `<div class="italic">`. -/
def lastUpdatedOpen : Tok := Tok.openTag "div" [("class", "italic")]

/-- The single-post page of `src/layouts/BlogPost.astro`, translated
element by element: shell, header, optional hero image (guarded by
`heroImage &&`), publish date, optional "Last updated on" line (guarded by
`updatedDate &&`), title, rule, and the body slot. -/
def renderBlogPost (p : Post) : List Tok :=
  Layout (p.title ++ " - " ++ SITE_TITLE) (
    Header ++
    el "main" [("class", "py-8 w-full")] (
      el "article" [] (
        el "div" [("class", "w-full")] (
          match p.heroImage with
          | some h =>
              voidEl "img"
                [("class", "px-4 block mx-auto rounded-[2.0rem] drop-shadow-xl lg:max-w-5xl"),
                 ("src", h), ("alt", ""),
                 ("transition:name", p.title ++ "-heroImage")]
          | none => []) ++
        el "div" [("class", "prose mx-auto p-4 text-secondary max-w-screen-md")] (
          el "div" [("class", "mb-4 mt-2 text-center leading-none")] (
            el "div" [("class", "text-gray-500 text-lg mb-2")] (
              FormattedDate p.pubDate ++
              (match p.updatedDate with
               | some d =>
                   el "div" [("class", "italic")]
                     (Tok.text "Last updated on " :: FormattedDate d)
               | none => [])) ++
            el "h1" [("class", "text-4xl text-secondary mb-4")] [Tok.text p.title] ++
            voidEl "hr" [("class", "border-gray-600 my-8")]) ++
          el "div" [("class", "prose prose-slate text-secondary text-lg lg:text-base max-w-[100vw] md:max-w-full mx-auto")]
            [Tok.text p.body]))))

/-- The attribute list of the `img` element of a blog index list item in
`src/pages/blog/index.astro`: `src={post.data.heroImage}` is emitted only
when `heroImage` is defined (Astro omits `undefined` attribute values),
but the element itself is unguarded. -/
def indexImgAttrs (p : Post) : List (String × String) :=
  ("class", "w-full mb-2 rounded-lg group-hover:shadow-lg group-hover:shadow-orange-700 transition-all duration-200 ease-in")
    :: (optAttr "src" p.heroImage ++
        [("alt", ""), ("transition:name", p.title ++ "-heroImage")])

/-- The link target of a blog index list item:
`` href={`/blog/${post.slug}/`} ``. -/
def postHref (p : Post) : String := "/blog/" ++ p.slug ++ "/"

/-- One list item of the blog index of `src/pages/blog/index.astro`:
`posts.map((post) => (<li>…</li>))`, with the anchor, the unconditional
image, the title and the formatted publish date. -/
def blogIndexItem (p : Post) : List Tok :=
  el "li" [("class", "w-5/6 lg:w-1/2 p-4")] (
    el "a" [("href", postHref p),
            ("class", "group flex flex-col gap-1 justify-center items-center")] (
      voidEl "img" (indexImgAttrs p) ++
      el "h4" [("class", "text-secondary text-center text-2xl leading-none group-hover:text-orange-500 transition-colors duration-200 ease-in")]
        [Tok.text p.title] ++
      el "p" [("class", "text-gray-400 group-hover:text-gray-600 transition-colors duration-200 ease-in")]
        (FormattedDate p.pubDate)))

/-- The contents of the `ul` of the blog index: one list item per sorted
post entry. -/
def blogIndexItems (entries : List Post) : List Tok :=
  (sortPosts entries).flatMap blogIndexItem

/-- The blog index page of `src/pages/blog/index.astro`: shell, header,
and the list of items built from the sorted entries. -/
def renderBlogIndex (entries : List Post) : List Tok :=
  Layout ("blog - " ++ SITE_TITLE) (
    Header ++
    el "main" [("class", "max-w-screen-lg mx-auto py-8")] (
      el "section" [] (
        el "ul" [("class", "flex flex-wrap list-none justify-center")]
          (blogIndexItems entries))))

/-- Recognise the opening token of a list item. -/
def isLiOpen : Tok → Bool
  | Tok.openTag t _ => t == "li"
  | _ => false

/-- Number of list items opened in a token stream. -/
def liCount (toks : List Tok) : Nat := toks.countP isLiOpen

/-- The link target of an anchor opening token, if any. -/
def hrefOf : Tok → Option String
  | Tok.openTag t attrs => if t == "a" then attrs.lookup "href" else none
  | _ => none

/-- The link targets of a token stream, in emission order. -/
def hrefs (toks : List Tok) : List String := toks.filterMap hrefOf

/-- A concrete post with neither `updatedDate` nor `heroImage`
(publish date Sep 03 2023, as in the repository's content entry). -/
def postBare : Post :=
  { slug := "translations-tool"
    title := "Validating translations in React with Rust - Part 1: CLI tool"
    description := "Solving the problem of missing and unused translations in React with a tool built in Rust."
    pubDate := 1693699200000
    updatedDate := none
    heroImage := none
    body := "post body" }

/-- A concrete post with both optional fields present
(publish date Sep 11 2023). -/
def postFull : Post :=
  { slug := "second-post"
    title := "A second post"
    description := "Another entry."
    pubDate := 1694390400000
    updatedDate := some 1694822400000
    heroImage := some "/images/translations-1-hero.png"
    body := "another body" }

/-- A concrete post sharing `postBare`'s publish date. -/
def postDup : Post :=
  { slug := "same-day-post"
    title := "Published the same day"
    description := "Shares a publish date with postBare."
    pubDate := 1693699200000
    updatedDate := none
    heroImage := none
    body := "body" }

theorem postLE_trans (a b c : Post) (h₁ : postLE a b = true) (h₂ : postLE b c = true) :
    postLE a c = true := by
  simp only [postLE, decide_eq_true_eq] at h₁ h₂ ⊢
  omega

theorem postLE_total (a b : Post) : (postLE a b || postLE b a) = true := by
  simp only [postLE, Bool.or_eq_true, decide_eq_true_eq]
  omega

theorem sortPosts_pairwise (l : List Post) :
    (sortPosts l).Pairwise (fun a b => b.pubDate ≤ a.pubDate) := by
  have h := List.sorted_mergeSort postLE_trans postLE_total l
  exact h.imp (by intro a b hb; simpa [postLE] using hb)

/-- Claim C1: the post index builder returns the entries sorted in
descending order of publish date: the output is pairwise descending, and
whenever `a` appears before `b` in the output, `b`'s publish date is at
most `a`'s — so of two entries with distinct publish dates the
later-dated one appears earlier. -/
theorem sortPosts_sorted_desc (l : List Post) :
    (sortPosts l).Pairwise (fun a b => b.pubDate ≤ a.pubDate) ∧
    (∀ a b : Post, [a, b].Sublist (sortPosts l) → b.pubDate ≤ a.pubDate) := by
  refine ⟨sortPosts_pairwise l, fun a b hsub => ?_⟩
  exact (List.pairwise_iff_forall_sublist.mp (sortPosts_pairwise l)) hsub

/-- Witness for C1 at a concrete input: sorting the Sep 11 post before
the Sep 03 post is consistent with the descending order. -/
theorem sortPosts_sorted_desc_witness : postBare.pubDate ≤ postFull.pubDate :=
  (sortPosts_sorted_desc [postFull, postBare]).2 postFull postBare
    (by rw [show sortPosts [postFull, postBare] = [postFull, postBare] from
          List.mergeSort_of_sorted (by decide)])

/-- Claim C2: the builder's sort is stable: two entries with equal
publish dates that appear in some relative order in the input appear in
the same relative order in the output. -/
theorem sortPosts_stable (a b : Post) (l : List Post)
    (hd : a.pubDate = b.pubDate) (hsub : [a, b].Sublist l) :
    [a, b].Sublist (sortPosts l) :=
  List.pair_sublist_mergeSort postLE_trans postLE_total
    (by simp [postLE, hd]) hsub

/-- Witness for C2 at a concrete input: two posts sharing a publish date
keep their input order. -/
theorem sortPosts_stable_witness : [postBare, postDup].Sublist (sortPosts [postBare, postDup]) :=
  sortPosts_stable postBare postDup [postBare, postDup] rfl (List.Sublist.refl _)

/-- Claim C3: the builder's output is a permutation of its input: exactly
the given entries, none added, dropped or duplicated. -/
theorem sortPosts_perm_input (l : List Post) : (sortPosts l).Perm l :=
  List.mergeSort_perm l postLE

theorem sortPosts_filter_pubDate (l : List Post) (d : Int) :
    (sortPosts l).filter (fun p => p.pubDate == d) = l.filter (fun p => p.pubDate == d) := by
  have hpw : (l.filter (fun p => p.pubDate == d)).Pairwise (fun a b => postLE a b = true) := by
    have : ∀ a ∈ l.filter (fun p => p.pubDate == d),
        ∀ b ∈ l.filter (fun p => p.pubDate == d), postLE a b = true := by
      intro a ha b hb
      have ha' := (List.mem_filter.mp ha).2
      have hb' := (List.mem_filter.mp hb).2
      simp only [beq_iff_eq] at ha' hb'
      simp [postLE, ha', hb']
    exact List.pairwise_of_forall_mem_list this
  have hsub : (l.filter (fun p => p.pubDate == d)).Sublist (sortPosts l) :=
    List.sublist_mergeSort postLE_trans postLE_total hpw (List.filter_sublist l)
  have hself : (l.filter (fun p => p.pubDate == d)).filter (fun p => p.pubDate == d)
      = l.filter (fun p => p.pubDate == d) :=
    List.filter_eq_self.mpr fun a ha => (List.mem_filter.mp ha).2
  have hsub2 : (l.filter (fun p => p.pubDate == d)).Sublist
      ((sortPosts l).filter (fun p => p.pubDate == d)) := by
    have := List.Sublist.filter (fun p => p.pubDate == d) hsub
    rwa [hself] at this
  have hperm : ((sortPosts l).filter (fun p => p.pubDate == d)).Perm
      (l.filter (fun p => p.pubDate == d)) :=
    List.Perm.filter _ (List.mergeSort_perm l postLE)
  exact (hsub2.eq_of_length hperm.length_eq.symm).symm

theorem eq_of_sorted_of_filter_eq :
    ∀ (l₁ l₂ : List Post),
      l₁.Pairwise (fun a b => b.pubDate ≤ a.pubDate) →
      l₂.Pairwise (fun a b => b.pubDate ≤ a.pubDate) →
      (∀ d : Int, l₁.filter (fun p => p.pubDate == d) = l₂.filter (fun p => p.pubDate == d)) →
      l₁ = l₂ := by
  intro l₁
  induction l₁ with
  | nil =>
    intro l₂ _ _ hf
    cases l₂ with
    | nil => rfl
    | cons b t₂ =>
      have h := hf b.pubDate
      simp [List.filter_cons] at h
  | cons a t₁ ih =>
    intro l₂ h₁ h₂ hf
    cases l₂ with
    | nil =>
      have h := hf a.pubDate
      simp [List.filter_cons] at h
    | cons b t₂ =>
      have hamem : a ∈ b :: t₂ := by
        have h := hf a.pubDate
        have ha : a ∈ (a :: t₁).filter (fun p => p.pubDate == a.pubDate) :=
          List.mem_filter.mpr ⟨List.mem_cons_self a t₁, by simp⟩
        rw [h] at ha
        exact (List.mem_filter.mp ha).1
      have hbmem : b ∈ a :: t₁ := by
        have h := hf b.pubDate
        have hb : b ∈ (b :: t₂).filter (fun p => p.pubDate == b.pubDate) :=
          List.mem_filter.mpr ⟨List.mem_cons_self b t₂, by simp⟩
        rw [← h] at hb
        exact (List.mem_filter.mp hb).1
      have hale : a.pubDate ≤ b.pubDate := by
        rcases List.mem_cons.mp hamem with h | h
        · rw [h]
        · exact (List.pairwise_cons.mp h₂).1 a h
      have hble : b.pubDate ≤ a.pubDate := by
        rcases List.mem_cons.mp hbmem with h | h
        · rw [h]
        · exact (List.pairwise_cons.mp h₁).1 b h
      have hdate : a.pubDate = b.pubDate := le_antisymm hale hble
      have hcons : a :: t₁.filter (fun p => p.pubDate == b.pubDate)
          = b :: t₂.filter (fun p => p.pubDate == b.pubDate) := by
        have h := hf b.pubDate
        rw [List.filter_cons, List.filter_cons] at h
        simpa [hdate] using h
      have hhead : a = b := by
        exact (List.cons_eq_cons.mp hcons).1
      subst hhead
      have htails : ∀ d : Int,
          t₁.filter (fun p => p.pubDate == d) = t₂.filter (fun p => p.pubDate == d) := by
        intro d
        have h := hf d
        rw [List.filter_cons, List.filter_cons] at h
        by_cases hc : (a.pubDate == d) = true
        · simp only [hc, if_true] at h
          exact (List.cons_eq_cons.mp h).2
        · simp only [hc, if_false] at h
          exact h
      have := ih t₂ (List.pairwise_cons.mp h₁).2 (List.pairwise_cons.mp h₂).2 htails
      rw [this]

/-- Claim C6: the post index builder is deterministic: its output is the
unique list that is sorted descending by publish date and stable with
respect to the input (for every date, the entries carrying that date
appear exactly as they do in the input).  Any run of a conforming stable
sort therefore produces exactly `sortPosts l`; the embedding is a pure
function, so no state is modified. -/
theorem postIndex_deterministic (l out : List Post)
    (hsorted : out.Pairwise (fun a b => b.pubDate ≤ a.pubDate))
    (hstable : ∀ d : Int, out.filter (fun p => p.pubDate == d) = l.filter (fun p => p.pubDate == d)) :
    out = sortPosts l :=
  eq_of_sorted_of_filter_eq out (sortPosts l) hsorted (sortPosts_pairwise l)
    (fun d => (hstable d).trans (sortPosts_filter_pubDate l d).symm)

/-- Witness for C6 at a concrete input: a descending two-entry list is its
own sort. -/
theorem postIndex_deterministic_witness :
    [postFull, postBare] = sortPosts [postFull, postBare] :=
  postIndex_deterministic [postFull, postBare] [postFull, postBare]
    (by decide) (fun _ => rfl)

/-- Claim C7: the builder never mutates entries: an entry (with all of its
fields) occurs in the output exactly when that same entry occurs in the
input — the builder only reorders; the renderers below are likewise pure
functions of their arguments. -/
theorem sortPosts_preserves_entries (l : List Post) (p : Post) :
    p ∈ sortPosts l ↔ p ∈ l :=
  List.mem_mergeSort

theorem blogPost_no_img (p : Post) (h : p.heroImage = none) :
    ∀ attrs, Tok.openTag "img" attrs ∉ renderBlogPost p := by
  intro attrs
  cases hu : p.updatedDate <;>
    simp [renderBlogPost, Layout, Header, el, voidEl, FormattedDate, SITE_TITLE, h, hu]

theorem imgTok_mem_item (p : Post) :
    Tok.openTag "img" (indexImgAttrs p) ∈ blogIndexItem p := by
  simp [blogIndexItem, el, voidEl]

theorem mem_renderBlogIndex_of_mem_items (entries : List Post) (t : Tok)
    (h : t ∈ blogIndexItems entries) : t ∈ renderBlogIndex entries := by
  simp [renderBlogIndex, Layout, Header, el, h]

/-- Claim C4: the single-post page includes the "Last updated on" line
exactly when `updatedDate` is present: with `updatedDate` absent the
markup has no `<div class="italic">` line, and with it present the line
and its text are emitted; rendering is total, so the absent case raises
no error. -/
theorem blogPost_updatedDate_line (p : Post) :
    (p.updatedDate = none → lastUpdatedOpen ∉ renderBlogPost p) ∧
    (∀ d : Int, p.updatedDate = some d →
      lastUpdatedOpen ∈ renderBlogPost p ∧ Tok.text "Last updated on " ∈ renderBlogPost p) := by
  constructor
  · intro h
    cases hh : p.heroImage <;>
      simp [renderBlogPost, Layout, Header, el, voidEl, FormattedDate, SITE_TITLE,
        lastUpdatedOpen, h, hh]
  · intro d h
    constructor <;>
      cases hh : p.heroImage <;>
        simp [renderBlogPost, Layout, Header, el, voidEl, FormattedDate, SITE_TITLE,
          lastUpdatedOpen, h, hh]

/-- Witness for C4 at concrete inputs: the post with no `updatedDate`
omits the line, the post with one includes it. -/
theorem blogPost_updatedDate_line_witness :
    lastUpdatedOpen ∉ renderBlogPost postBare ∧ lastUpdatedOpen ∈ renderBlogPost postFull :=
  ⟨(blogPost_updatedDate_line postBare).1 rfl,
   ((blogPost_updatedDate_line postFull).2 1694822400000 rfl).1⟩

/-- Counterexample to C5 as stated: `postBare` has no `heroImage`, yet the
blog index listing page still emits an `img` element for it — the index
does not omit the image element. -/
theorem heroImage_index_counterexample :
    postBare.heroImage = none ∧
    Tok.openTag "img" (indexImgAttrs postBare) ∈ renderBlogIndex [postBare] := by
  constructor
  · rfl
  · apply mem_renderBlogIndex_of_mem_items
    simp [blogIndexItems, sortPosts, List.mergeSort_singleton]
    exact imgTok_mem_item postBare

/-- Claim C5 (amended): for a post with no `heroImage`, the single-post
page omits the `img` element entirely and rendering is total (no error);
the blog index listing, by contrast, still emits an `img` element for the
post, merely without a `src` attribute. -/
theorem heroImage_none_render (p : Post) (h : p.heroImage = none) :
    (∀ attrs, Tok.openTag "img" attrs ∉ renderBlogPost p) ∧
    Tok.openTag "img" (indexImgAttrs p) ∈ blogIndexItem p :=
  ⟨blogPost_no_img p h, imgTok_mem_item p⟩

/-- Witness for the amended C5 at a concrete input. -/
theorem heroImage_none_render_witness :
    Tok.openTag "img" [] ∉ renderBlogPost postBare :=
  (heroImage_none_render postBare rfl).1 []

/-- Claim C8: the blog index emits an `img` element for every listed post
unconditionally, its attributes (including the optional `src` taken from
`heroImage`) given by `indexImgAttrs` — even for a post with no
`heroImage`; the single-post layout, by contrast, guards its image and
emits no `img` element when `heroImage` is absent. -/
theorem blogIndex_img_unconditional :
    (∀ (entries : List Post) (p : Post), p ∈ entries →
      Tok.openTag "img" (indexImgAttrs p) ∈ renderBlogIndex entries) ∧
    (∀ p : Post, p.heroImage = none →
      ∀ attrs, Tok.openTag "img" attrs ∉ renderBlogPost p) := by
  constructor
  · intro entries p hp
    apply mem_renderBlogIndex_of_mem_items
    exact List.mem_flatMap.mpr ⟨p, List.mem_mergeSort.mpr hp, imgTok_mem_item p⟩
  · exact blogPost_no_img

/-- Witness for C8 at a concrete input. -/
theorem blogIndex_img_unconditional_witness :
    Tok.openTag "img" (indexImgAttrs postBare) ∈ renderBlogIndex [postBare] :=
  blogIndex_img_unconditional.1 [postBare] postBare (List.mem_cons_self postBare [])

theorem liCount_item (p : Post) : liCount (blogIndexItem p) = 1 := by
  cases p.heroImage <;>
    simp [liCount, blogIndexItem, el, voidEl, optAttr, indexImgAttrs, FormattedDate,
      isLiOpen, List.countP_cons]

theorem hrefs_item (p : Post) : hrefs (blogIndexItem p) = [postHref p] := by
  cases p.heroImage <;>
    simp [hrefs, blogIndexItem, el, voidEl, optAttr, indexImgAttrs, FormattedDate,
      hrefOf, List.lookup]

theorem liCount_flatMap (l : List Post) : liCount (l.flatMap blogIndexItem) = l.length := by
  induction l with
  | nil => simp [liCount]
  | cons p t ih =>
    rw [List.flatMap_cons]
    simp only [liCount, List.countP_append, List.length_cons] at *
    have h1 := liCount_item p
    simp only [liCount] at h1
    omega

theorem hrefs_flatMap (l : List Post) :
    hrefs (l.flatMap blogIndexItem) = l.map postHref := by
  induction l with
  | nil => simp [hrefs]
  | cons p t ih =>
    rw [List.flatMap_cons]
    simp only [hrefs, List.filterMap_append] at *
    rw [List.map_cons, ← ih]
    have h1 := hrefs_item p
    simp only [hrefs] at h1
    rw [h1]
    rfl

theorem postHref_injective (p q : Post) (h : p.slug ≠ q.slug) : postHref p ≠ postHref q := by
  intro hcontra
  apply h
  have h2 := congrArg String.data hcontra
  simp [postHref, String.data_append] at h2
  exact String.ext h2

/-- Claim C9: the blog index list has exactly one `li` item per input
entry, the link targets appear in exactly the order produced by the index
builder and equal `"/blog/" ++ slug ++ "/"`, and distinct slugs give
distinct link targets. -/
theorem blogIndex_items_spec (entries : List Post) :
    liCount (blogIndexItems entries) = entries.length ∧
    hrefs (blogIndexItems entries) = (sortPosts entries).map postHref ∧
    (∀ p q : Post, p.slug ≠ q.slug → postHref p ≠ postHref q) := by
  refine ⟨?_, ?_, postHref_injective⟩
  · rw [blogIndexItems, liCount_flatMap]
    exact List.length_mergeSort entries
  · rw [blogIndexItems, hrefs_flatMap]

/-- Witness for C9 at a concrete input: two distinct slugs give distinct
link targets. -/
theorem blogIndex_items_spec_witness : postHref postFull ≠ postHref postBare :=
  (blogIndex_items_spec []).2.2 postFull postBare (by decide)

/-- Claim C10: the publish date is rendered unconditionally: whatever the
optional `updatedDate` and `heroImage` fields are, both the single-post
page and the post's blog index list item contain the `FormattedDate` node
for the post's publish date. -/
theorem pubDate_always_rendered (p : Post) :
    Tok.dateNode p.pubDate ∈ renderBlogPost p ∧
    Tok.dateNode p.pubDate ∈ blogIndexItem p := by
  constructor <;>
    cases hu : p.updatedDate <;> cases hh : p.heroImage <;>
      simp [renderBlogPost, blogIndexItem, Layout, Header, el, voidEl, FormattedDate,
        SITE_TITLE, optAttr, indexImgAttrs, hu, hh]
